import Mathlib

/-!
Shallow embedding of the segment-processing pipeline of `src/main.py`
(hackcambridge2022): the generic `pipe` combinator, key-frame selection
(`get_key_frame_index`), and the quadrant crop (`crop_keyframe`).
Python's in-place mutation of a `Segment` becomes explicit state passing;
raised exceptions become `Except`; the call order of the pipeline's loops
is observed by instrumenting operations in a state monad carrying a trace.
The data classes (`Segment`, the detector's bounding box, `ImageData`)
live in modules that are not part of the staged sources and are modelled
from the spec where noted.
-/

/-- Effective index of a Python/numpy basic slice bound: a negative bound
counts from the end of the axis, and the result is clamped to `[0, len]`.
This is the semantics of `a[:i]` / `a[i:]` for any integer `i`. -/
def pyIdx (len : Nat) (i : Int) : Nat :=
  (min (if i < 0 then (len : Int) + i else i) (len : Int)).toNat

/-- A raster as held in `segment.keyframe`: a numpy array of shape
`(shape0, shape1, channels)`.  The two sliced axes carry explicit extents,
mirroring numpy's shape metadata (kept even when an axis becomes empty);
the channel axis is the innermost list and is never sliced, since
`crop_keyframe` always passes `:` there. -/
structure Image where
  shape0 : Nat
  shape1 : Nat
  data : List (List (List Int))
deriving DecidableEq, Repr

/-- The shape metadata agrees with the stored data. -/
def Image.wf (img : Image) : Prop :=
  img.data.length = img.shape0 ∧ ∀ row ∈ img.data, row.length = img.shape1

/-- `a[:stop, :, :]`. -/
def Image.sliceTo0 (img : Image) (stop : Int) : Image :=
  ⟨pyIdx img.shape0 stop, img.shape1, img.data.take (pyIdx img.shape0 stop)⟩

/-- `a[start:, :, :]`. -/
def Image.sliceFrom0 (img : Image) (start : Int) : Image :=
  ⟨img.shape0 - pyIdx img.shape0 start, img.shape1,
   img.data.drop (pyIdx img.shape0 start)⟩

/-- `a[:, :stop, :]`. -/
def Image.sliceTo1 (img : Image) (stop : Int) : Image :=
  ⟨img.shape0, pyIdx img.shape1 stop,
   img.data.map (fun row => row.take (pyIdx img.shape1 stop))⟩

/-- `a[:, start:, :]`. -/
def Image.sliceFrom1 (img : Image) (start : Int) : Image :=
  ⟨img.shape0, img.shape1 - pyIdx img.shape1 start,
   img.data.map (fun row => row.drop (pyIdx img.shape1 start))⟩

/-- Modelled from the spec: the face detector's axis-aligned bounding box
`(x, y, width, height, plus a derived center)` (§3).  Its class is defined
in `face_detector.py`, which is not among the staged sources; the spec does
not give the derivation of `center`, so the center is carried as data.
Coordinates are integer-valued (the `int(...)` coercions of
`crop_keyframe` are then the identity). -/
structure BBox where
  x : Int
  y : Int
  width : Int
  height : Int
  center0 : Int
  center1 : Int
deriving DecidableEq, Repr

/-- Modelled from the spec: the final per-segment artifact pairing the
processed raster with its subject bbox (§3); its class is defined in
`structures.py`, which is not among the staged sources. -/
structure ImageData where
  image_data_matrix : Image
  image_subject : BBox
deriving DecidableEq, Repr

/-- Modelled from the spec: the per-utterance record carried through the
pipeline (§3); its class is defined in `structures.py`, which is not among
the staged sources.  Field names follow the source's attribute names
(`«end»` quotes the Python field `end`, a Lean keyword). -/
structure Segment where
  start : Rat
  «end» : Rat
  frames : List Image
  keyframe_index : Nat
  keyframe : Image
  speaker_location : Int × Int
  speakers_bbox : BBox
  image : Option ImageData
deriving DecidableEq

/-- Horizontal pass of `crop_keyframe` (main.py lines 58-63): compare the
bbox center's first coordinate against `keyframe.shape[0] // 2`; strictly
past the midline keep `keyframe[: x + width]`, otherwise keep
`keyframe[x :]`. -/
def crop_horizontal (bbox : BBox) (img : Image) : Image :=
  if bbox.center0 > ((img.shape0 / 2 : Nat) : Int) then
    img.sliceTo0 (bbox.x + bbox.width)
  else
    img.sliceFrom0 bbox.x

/-- Vertical pass of `crop_keyframe` (main.py lines 65-70): same policy on
the second axis against `keyframe.shape[1] // 2`, where `keyframe` is by
then the result of the horizontal pass. -/
def crop_vertical (bbox : BBox) (img : Image) : Image :=
  if bbox.center1 > ((img.shape1 / 2 : Nat) : Int) then
    img.sliceTo1 (bbox.y + bbox.height)
  else
    img.sliceFrom1 bbox.y

/-- The two sequential reassignments of `segment.keyframe` in
`crop_keyframe`: the vertical pass reads the horizontal pass's result. -/
def crop_image (bbox : BBox) (img : Image) : Image :=
  crop_vertical bbox (crop_horizontal bbox img)

/-- `crop_keyframe` (main.py lines 55-70) as a segment transformer: reads
`speakers_bbox` and `keyframe`, writes only `keyframe`. -/
def crop_keyframe (segment : Segment) : Segment :=
  { segment with keyframe := crop_image segment.speakers_bbox segment.keyframe }

/-- The horizontal pass as the claim words it for comparison: "keeps the
image from index 0 up to `bbox.x + bbox.width` with that upper bound
included", i.e. the slice would end one past `x + width`. -/
def crop_horizontal_claimC3 (bbox : BBox) (img : Image) : Image :=
  if bbox.center0 > ((img.shape0 / 2 : Nat) : Int) then
    img.sliceTo0 (bbox.x + bbox.width + 1)
  else
    img.sliceFrom0 bbox.x

/-- Modelled from the spec: the error taxonomy of §7.  `emptySegmentError`
stands for the failure `random.randint` raises on an empty range
(Python's `ValueError`), which the spec's taxonomy names
`EmptySegmentError`: in this program the range is empty exactly when the
segment has zero attached frames. -/
inductive PipelineError where
  | emptySegmentError
deriving DecidableEq, Repr

/-- `random.randint(a, b)` (Python stdlib, modelled by its contract):
returns an integer in `[a, b]` when `a ≤ b` and raises on an empty range.
The randomness is supplied as the oracle `r`. -/
def randint (r : Nat) (a b : Int) : Except PipelineError Int :=
  if a ≤ b then .ok (a + (r : Int) % (b - a + 1)) else .error .emptySegmentError

/-- `get_key_frame_index` (main.py lines 42-43):
`segment.keyframe_index = randint(0, segment.frames.shape[0] - 1)`,
with the frame stack's `shape[0]` being the number of frames. -/
def get_key_frame_index (r : Nat) (segment : Segment) : Except PipelineError Segment :=
  match randint r 0 ((segment.frames.length : Int) - 1) with
  | .ok i => .ok { segment with keyframe_index := i.toNat }
  | .error e => .error e

/-- The inner loop of `pipe`'s `pipeline` (main.py lines 27-28): apply the
declared operations to one segment, in declared order. -/
def applyOps {M : Type → Type} [Monad M] {σ : Type} : List (σ → M σ) → σ → M σ
  | [], s => pure s
  | f :: fs, s => f s >>= applyOps fs

/-- `pipe` (main.py lines 20-32): the returned `pipeline` loops over the
segments (outer loop) and, per segment, over the declared operations
(inner loop), returning the segments.  Mutation and exceptions of the
Python operations are effects of the monad `M`. -/
def pipe {M : Type → Type} [Monad M] {σ : Type} (functions : List (σ → M σ)) :
    List σ → M (List σ)
  | [] => pure []
  | segment :: rest =>
      applyOps functions segment >>= fun s =>
        pipe functions rest >>= fun rs => pure (s :: rs)

/-- A log of the pipeline's calls: `(segment, operation index)` in call
order. -/
abbrev Trace (σ : Type) : Type := List (σ × Nat)

/-- Instrument operations for order observation: operation `j` with
underlying behaviour `f` logs `(segment, j)` when called, then behaves as
`f`. -/
def wrapOps {σ : Type} : Nat → List (σ → σ) → List (σ → StateM (Trace σ) σ)
  | _, [] => []
  | j, f :: fs =>
      (fun s => fun tr => (f s, tr ++ [(s, j)])) :: wrapOps (j + 1) fs

/-- The calls one segment receives: every declared operation once, in
declared order, each seeing the state its predecessors produced. -/
def segTrace {σ : Type} : Nat → List (σ → σ) → σ → Trace σ
  | _, [], _ => []
  | j, f :: fs, s => (s, j) :: segTrace (j + 1) fs (f s)

/-- Sequential application of all operations to one segment. -/
def applyAll {σ : Type} : List (σ → σ) → σ → σ
  | [], s => s
  | f :: fs, s => applyAll fs (f s)

/-- A 4 x 1 x 1 raster with distinct rows. -/
def img4 : Image := ⟨4, 1, [[[0]], [[1]], [[2]], [[3]]]⟩

/-- A 4 x 4 x 1 raster with distinct pixels. -/
def img44 : Image :=
  ⟨4, 4,
   [[[0], [1], [2], [3]],
    [[10], [11], [12], [13]],
    [[20], [21], [22], [23]],
    [[30], [31], [32], [33]]]⟩

/-- A bbox whose center sits exactly on both midlines of a 4 x 4 frame. -/
def bboxTie : BBox := ⟨1, 1, 2, 2, 2, 2⟩

/-- A bbox whose center sits exactly on the first-axis midline of a
4 x 4 frame and off the second-axis midline. -/
def bboxTie0 : BBox := ⟨1, 0, 2, 1, 2, 9⟩

/-- A bbox whose center sits exactly on the second-axis midline of a
4 x 4 frame and off the first-axis midline. -/
def bboxTie1 : BBox := ⟨0, 1, 2, 2, 9, 2⟩

/-- A bbox whose center is strictly past the horizontal midline of a
4-row frame. -/
def bboxPast : BBox := ⟨0, 0, 2, 1, 3, 0⟩

/-- A degenerate bbox: zero width and height. -/
def bboxDeg : BBox := ⟨0, 0, 0, 0, 3, 0⟩

/-- A valid bbox for a 4 x 1 frame: positive extents, in-raster corner. -/
def bboxValid : BBox := ⟨1, 0, 1, 1, 0, 0⟩

/-- Pipeline operation: increment. -/
def opIncr : Nat → Except Nat Nat := fun n => .ok (n + 1)

/-- Pipeline operation: fails (with error 7) exactly on input 4. -/
def opGate : Nat → Except Nat Nat := fun n => if n = 4 then .error 7 else .ok n

/-- Pipeline operation: identity. -/
def opId : Nat → Except Nat Nat := fun n => .ok n

/-- Applying a `StateM` bind is applying the continuation to the first
computation's result and state. -/
theorem stateM_bind_apply {τ α β : Type} (x : StateM τ α) (g : α → StateM τ β)
    (t : τ) : (x >>= g) t = g (x t).1 (x t).2 := rfl

/-- Applying a `StateM` pure returns the value and the untouched state. -/
theorem stateM_pure_apply {τ α : Type} (a : α) (t : τ) :
    (pure a : StateM τ α) t = (a, t) := rfl

/-- A `StateM` bind steps through a computation with a known outcome. -/
theorem stateM_bind_eq {τ α β : Type} (x : StateM τ α) (g : α → StateM τ β)
    (t t' : τ) (a : α) (h : x t = (a, t')) : (x >>= g) t = g a t' := by
  rw [stateM_bind_apply, h]

/-- The instrumented inner loop applies the underlying operations in
declared order and logs exactly one `(state, index)` event per operation. -/
theorem applyOps_wrapOps {σ : Type} (fs : List (σ → σ)) (j : Nat) (s : σ)
    (tr : Trace σ) :
    applyOps (wrapOps j fs) s tr = (applyAll fs s, tr ++ segTrace j fs s) := by
  induction fs generalizing j s tr with
  | nil => simp [wrapOps, applyOps, applyAll, segTrace, stateM_pure_apply]
  | cons f fs ih =>
      have h : applyOps (wrapOps j (f :: fs)) s tr
          = applyOps (wrapOps (j + 1) fs) (f s) (tr ++ [(s, j)]) := rfl
      rw [h, ih]
      simp [applyAll, segTrace]

/-- The instrumented pipeline from any initial trace. -/
theorem pipe_wrapOps {σ : Type} (fs : List (σ → σ)) (segs : List σ)
    (tr : Trace σ) :
    pipe (wrapOps 0 fs) segs tr
      = (segs.map (applyAll fs), tr ++ segs.flatMap (segTrace 0 fs)) := by
  induction segs generalizing tr with
  | nil => simp [pipe, stateM_pure_apply]
  | cons s rest ih =>
      have h1 : pipe (wrapOps 0 fs) (s :: rest) tr
          = ((pipe (wrapOps 0 fs) rest) >>=
              fun rs => pure ((applyAll fs s) :: rs)) (tr ++ segTrace 0 fs s) := by
        show (applyOps (wrapOps 0 fs) s >>= fun s' =>
          pipe (wrapOps 0 fs) rest >>= fun rs => pure (s' :: rs)) tr = _
        rw [stateM_bind_eq _ _ tr (tr ++ segTrace 0 fs s) (applyAll fs s)
          (applyOps_wrapOps fs 0 s tr)]
      rw [h1, stateM_bind_eq _ _ _ (tr ++ segTrace 0 fs s ++ rest.flatMap (segTrace 0 fs))
        (rest.map (applyAll fs)) (ih _), stateM_pure_apply]
      simp [List.append_assoc]

/-- C1: the pipeline built by `pipe` is segment-major: instrumenting each
declared operation to log `(segment state, operation index)` shows that,
for each segment in sequence order, every operation runs exactly once in
declared order, and all of one segment's events precede the next
segment's. -/
theorem pipe_applies_ops_segment_major {σ : Type} (fs : List (σ → σ))
    (segs : List σ) :
    pipe (wrapOps 0 fs) segs []
      = (segs.map (applyAll fs), segs.flatMap (segTrace 0 fs)) := by
  rw [pipe_wrapOps]
  simp

/-- A nonnegative slice bound is not re-based from the end: only clamped. -/
theorem pyIdx_of_nonneg {i : Int} (len : Nat) (h : 0 ≤ i) :
    pyIdx len i = min i.toNat len := by
  unfold pyIdx
  rw [if_neg (not_lt.mpr h)]
  omega

/-- A slice never keeps more than the axis holds. -/
theorem pyIdx_le (len : Nat) (i : Int) : pyIdx len i ≤ len := by
  unfold pyIdx
  split <;> omega

/-- The horizontal pass slices only the first axis: the second extent is
untouched. -/
theorem crop_horizontal_shape1 (bbox : BBox) (img : Image) :
    (crop_horizontal bbox img).shape1 = img.shape1 := by
  unfold crop_horizontal Image.sliceTo0 Image.sliceFrom0
  split <;> rfl

/-- The vertical pass slices only the second axis: the first extent is
untouched. -/
theorem crop_vertical_shape0 (bbox : BBox) (img : Image) :
    (crop_vertical bbox img).shape0 = img.shape0 := by
  unfold crop_vertical Image.sliceTo1 Image.sliceFrom1
  split <;> rfl

/-- C2 counterexample: on a 4-row frame and a bbox whose center sits
exactly on the `shape[0] // 2` midline, the horizontal pass takes the
keep-from-`bbox.x` branch, not the "past midline" keep-left branch the
claim asserts (and the two branches produce different rasters here). -/
theorem crop_tie_cex :
    crop_horizontal bboxTie img4 = img4.sliceFrom0 bboxTie.x
      ∧ crop_horizontal bboxTie img4 ≠ img4.sliceTo0 (bboxTie.x + bboxTie.width) := by
  constructor
  · decide
  · decide

/-- C2 (amended): with the bbox center exactly on the midline of an axis,
the strict `>` comparison fails on that axis, so the crop takes the
not-past-midline branch there: a tie on the first axis makes the
horizontal pass keep from `bbox.x` to the far edge, and a tie on the
second axis makes the vertical pass (applied to the horizontal pass's
result) keep from `bbox.y` to the far edge — not the keep-left/keep-top
branch. -/
theorem crop_tie_keeps_from_bbox (img : Image) (bbox : BBox) :
    (bbox.center0 = ((img.shape0 / 2 : Nat) : Int) →
      crop_horizontal bbox img = img.sliceFrom0 bbox.x)
    ∧ (bbox.center1 = ((img.shape1 / 2 : Nat) : Int) →
      crop_image bbox img = (crop_horizontal bbox img).sliceFrom1 bbox.y) := by
  constructor
  · intro h0
    rw [crop_horizontal, if_neg]
    rw [h0]
    exact lt_irrefl _
  · intro h1
    rw [crop_image, crop_vertical, if_neg]
    rw [crop_horizontal_shape1, h1]
    exact lt_irrefl _

/-- C2 witness: concrete single-axis ties on a 4 x 4 frame — one bbox
tied only on the first axis, one tied only on the second. -/
theorem crop_tie_keeps_from_bbox_wit :
    crop_horizontal bboxTie0 img44 = img44.sliceFrom0 bboxTie0.x
      ∧ crop_image bboxTie1 img44 = (crop_horizontal bboxTie1 img44).sliceFrom1 bboxTie1.y :=
  ⟨(crop_tie_keeps_from_bbox img44 bboxTie0).1 (by decide),
   (crop_tie_keeps_from_bbox img44 bboxTie1).2 (by decide)⟩

/-- C3 counterexample: on a 4-row frame with the bbox center strictly past
the midline, the code keeps the first `bbox.x + bbox.width` rows — the
upper bound is excluded — while the claim's reading (upper bound
included) keeps one row more; the two disagree. -/
theorem crop_horizontal_bound_cex :
    crop_horizontal bboxPast img4 = ⟨2, 1, [[[0]], [[1]]]⟩
      ∧ crop_horizontal bboxPast img4 ≠ crop_horizontal_claimC3 bboxPast img4 := by
  constructor
  · decide
  · decide

/-- C3 (amended): the horizontal pass compares the center's first
coordinate against `shape[0] // 2` (floor division); strictly past the
midline it keeps the rows `0 ≤ i < bbox.x + bbox.width` — the first
`x + width` rows, clamped to the frame, the upper bound excluded —
otherwise it keeps from row `bbox.x` to the far edge. -/
theorem crop_horizontal_keeps (img : Image) (bbox : BBox)
    (hx : 0 ≤ bbox.x) (hw : 0 ≤ bbox.width) :
    (bbox.center0 > ((img.shape0 / 2 : Nat) : Int) →
      crop_horizontal bbox img =
        ⟨min (bbox.x + bbox.width).toNat img.shape0, img.shape1,
         img.data.take (min (bbox.x + bbox.width).toNat img.shape0)⟩)
    ∧ (¬ bbox.center0 > ((img.shape0 / 2 : Nat) : Int) →
      crop_horizontal bbox img =
        ⟨img.shape0 - min bbox.x.toNat img.shape0, img.shape1,
         img.data.drop (min bbox.x.toNat img.shape0)⟩) := by
  constructor
  · intro hc
    rw [crop_horizontal, if_pos hc, Image.sliceTo0,
      pyIdx_of_nonneg img.shape0 (by omega : (0 : Int) ≤ bbox.x + bbox.width)]
  · intro hc
    rw [crop_horizontal, if_neg hc, Image.sliceFrom0,
      pyIdx_of_nonneg img.shape0 hx]

/-- C3 witness: a concrete past-midline bbox on a 4-row frame. -/
theorem crop_horizontal_keeps_wit :
    crop_horizontal bboxPast img4 =
      ⟨min (bboxPast.x + bboxPast.width).toNat img4.shape0, img4.shape1,
       img4.data.take (min (bboxPast.x + bboxPast.width).toNat img4.shape0)⟩ :=
  (crop_horizontal_keeps img4 bboxPast (by decide) (by decide)).1 (by decide)

/-- C4 counterexample: the claimed divergence cannot occur — there is no
keyframe and bbox for which the vertical pass's midline
(`shape[1] // 2` of the horizontally cropped image) differs from
`shape[1] // 2` of the original frame, because the horizontal pass slices
only the first axis. -/
theorem vertical_midline_cex :
    ¬ ∃ (img : Image) (bbox : BBox),
      (crop_horizontal bbox img).shape1 / 2 ≠ img.shape1 / 2 := by
  rintro ⟨img, bbox, h⟩
  exact h (by rw [crop_horizontal_shape1])

/-- C4 (amended): the vertical pass is applied to the result of the
horizontal pass, and the midline it compares against is half the second
extent of that already-cropped image — which always equals half the
second extent of the original frame, since the horizontal pass slices
only the first axis. -/
theorem crop_vertical_after_horizontal (bbox : BBox) (img : Image) :
    crop_image bbox img = crop_vertical bbox (crop_horizontal bbox img)
      ∧ (crop_horizontal bbox img).shape1 / 2 = img.shape1 / 2 :=
  ⟨rfl, by rw [crop_horizontal_shape1]⟩

/-- C5: key-frame selection fails on a segment with zero attached frames
(randint's empty range, the spec's `EmptySegmentError`), and on a segment
with at least one frame it succeeds, whatever the randomness, with a
`keyframe_index` in `[0, number of frames)`. -/
theorem get_key_frame_index_spec (r : Nat) (s : Segment) :
    (s.frames.length = 0 →
      get_key_frame_index r s = Except.error PipelineError.emptySegmentError)
    ∧ (0 < s.frames.length →
      ∃ s', get_key_frame_index r s = Except.ok s'
        ∧ s'.keyframe_index < s.frames.length) := by
  constructor
  · intro h
    simp [get_key_frame_index, randint, h]
  · intro h
    have hne : (s.frames.length : Int) ≠ 0 := by exact_mod_cast Nat.pos_iff_ne_zero.mp h
    have hpos : (0 : Int) < (s.frames.length : Int) := by exact_mod_cast h
    have hle : (0 : Int) ≤ (s.frames.length : Int) - 1 := by omega
    have h1 : (0 : Int) ≤ (r : Int) % (s.frames.length : Int) := Int.emod_nonneg _ hne
    have h2 : (r : Int) % (s.frames.length : Int) < (s.frames.length : Int) :=
      Int.emod_lt_of_pos _ hpos
    refine ⟨{ s with keyframe_index :=
        ((0 : Int) + (r : Int) % ((s.frames.length : Int) - 1 - 0 + 1)).toNat }, ?_, ?_⟩
    · simp [get_key_frame_index, randint, hle]
    · show ((0 : Int) + (r : Int) % ((s.frames.length : Int) - 1 - 0 + 1)).toNat
        < s.frames.length
      have hn : ((s.frames.length : Int) - 1 - 0 + 1) = (s.frames.length : Int) := by ring
      rw [hn, zero_add]
      omega

/-- C6 counterexample: a bbox with non-positive width and height does not
make the crop fail — `crop_keyframe` has no validation and no failure
path — it silently returns an empty raster on this concrete 4 x 1 frame. -/
theorem crop_degenerate_bbox_cex :
    bboxDeg.width ≤ 0 ∧ bboxDeg.height ≤ 0
      ∧ crop_image bboxDeg img4 = ⟨0, 1, []⟩ := by
  refine ⟨by decide, by decide, by decide⟩

/-- C6 (amended): the quadrant crop performs no bounding-box validation
and cannot fail: for every bbox — degenerate or out of raster range —
it returns an image, the slice bounds clamped to the raster, so each
output extent is at most the input extent (possibly zero). -/
theorem crop_image_total_dims_le (bbox : BBox) (img : Image) :
    (crop_image bbox img).shape0 ≤ img.shape0
      ∧ (crop_image bbox img).shape1 ≤ img.shape1 := by
  constructor
  · rw [crop_image, crop_vertical_shape0, crop_horizontal]
    split
    · exact pyIdx_le _ _
    · exact Nat.sub_le _ _
  · rw [crop_image, crop_vertical]
    split
    · exact le_trans (pyIdx_le _ _) (le_of_eq (crop_horizontal_shape1 _ _))
    · exact le_trans (Nat.sub_le _ _) (le_of_eq (crop_horizontal_shape1 _ _))

/-- The inner loop over a split operation list runs the first part, then
feeds its outcome to the rest. -/
theorem applyOps_append_except {σ E : Type} (fs gs : List (σ → Except E σ))
    (s : σ) :
    applyOps (fs ++ gs) s = (applyOps fs s).bind (applyOps gs) := by
  induction fs generalizing s with
  | nil => rfl
  | cons f fs ih =>
      cases h : f s with
      | ok a => simp [applyOps, h, ih, Bind.bind, Except.bind]
      | error e => simp [applyOps, h, Bind.bind, Except.bind]

/-- C7: the pipeline is all-or-nothing per batch.  If, after the segments
of `pre` all succeed, operation `f` raises `e` on segment `s` (the
operations before it having succeeded on `s`), the whole pipeline call
evaluates to that error: the operations `fs2` after `f` never affect the
segment, the segments of `post` are never processed, and no segment list
is returned. -/
theorem pipe_error_aborts_batch {σ E : Type} (fs1 fs2 : List (σ → Except E σ))
    (f : σ → Except E σ) (pre post : List σ) (s s1 : σ) (e : E)
    (hpre : ∀ p ∈ pre, ∃ r, applyOps (fs1 ++ f :: fs2) p = Except.ok r)
    (h1 : applyOps fs1 s = Except.ok s1) (h2 : f s1 = Except.error e) :
    pipe (fs1 ++ f :: fs2) (pre ++ s :: post) = Except.error e := by
  induction pre with
  | nil =>
      have hs : applyOps (fs1 ++ f :: fs2) s = Except.error e := by
        rw [applyOps_append_except, h1]
        simp [applyOps, h2, Bind.bind, Except.bind]
      simp [pipe, hs, Bind.bind, Except.bind]
  | cons p rest ih =>
      obtain ⟨q, hq⟩ := hpre p (List.mem_cons_self p rest)
      have ih' := ih (fun u hu => hpre u (List.mem_cons_of_mem _ hu))
      simp [pipe, hq, ih', Bind.bind, Except.bind]

/-- C7 witness: a concrete three-stage pipeline whose middle stage fails
on the second of three segments; the batch yields only the error. -/
theorem pipe_error_aborts_batch_wit :
    pipe [opIncr, opGate, opId] [10, 3, 9] = Except.error 7 :=
  pipe_error_aborts_batch [opIncr] [opId] opGate [10] [9] 3 4 7
    (fun p hp => by
      rw [List.mem_singleton] at hp
      subst hp
      exact ⟨11, rfl⟩)
    rfl rfl

/-- The take branch of an axis keeps at least one entry for an in-range,
positive-extent bbox. -/
theorem crop_horizontal_shape0_bounds (img : Image) (bbox : BBox)
    (hx0 : 0 ≤ bbox.x) (hx1 : bbox.x < (img.shape0 : Int)) (hw : 0 < bbox.width) :
    1 ≤ (crop_horizontal bbox img).shape0
      ∧ (crop_horizontal bbox img).shape0 ≤ img.shape0 := by
  have hpos : 0 < img.shape0 := by
    have h : (0 : Int) < (img.shape0 : Int) := lt_of_le_of_lt hx0 hx1
    exact_mod_cast h
  rw [crop_horizontal]
  split
  · constructor
    · show 1 ≤ pyIdx img.shape0 (bbox.x + bbox.width)
      rw [pyIdx_of_nonneg _ (by omega)]
      exact le_min (by omega) (by omega)
    · exact pyIdx_le _ _
  · constructor
    · show 1 ≤ img.shape0 - pyIdx img.shape0 bbox.x
      rw [pyIdx_of_nonneg _ hx0, min_eq_left (by omega)]
      omega
    · exact Nat.sub_le _ _

/-- Same bound on the second axis. -/
theorem crop_vertical_shape1_bounds (img : Image) (bbox : BBox)
    (hy0 : 0 ≤ bbox.y) (hy1 : bbox.y < (img.shape1 : Int)) (hh : 0 < bbox.height) :
    1 ≤ (crop_vertical bbox img).shape1
      ∧ (crop_vertical bbox img).shape1 ≤ img.shape1 := by
  have hpos : 0 < img.shape1 := by
    have h : (0 : Int) < (img.shape1 : Int) := lt_of_le_of_lt hy0 hy1
    exact_mod_cast h
  rw [crop_vertical]
  split
  · constructor
    · show 1 ≤ pyIdx img.shape1 (bbox.y + bbox.height)
      rw [pyIdx_of_nonneg _ (by omega)]
      exact le_min (by omega) (by omega)
    · exact pyIdx_le _ _
  · constructor
    · show 1 ≤ img.shape1 - pyIdx img.shape1 bbox.y
      rw [pyIdx_of_nonneg _ hy0, min_eq_left (by omega)]
      omega
    · exact Nat.sub_le _ _

/-- C8: for a valid bbox — positive width and height, corner inside the
raster — each extent of the quadrant-crop output is at least 1 and at
most the corresponding input extent. -/
theorem crop_valid_bbox_dims (img : Image) (bbox : BBox)
    (hx0 : 0 ≤ bbox.x) (hx1 : bbox.x < (img.shape0 : Int)) (hw : 0 < bbox.width)
    (hy0 : 0 ≤ bbox.y) (hy1 : bbox.y < (img.shape1 : Int)) (hh : 0 < bbox.height) :
    (1 ≤ (crop_image bbox img).shape0 ∧ (crop_image bbox img).shape0 ≤ img.shape0)
    ∧ (1 ≤ (crop_image bbox img).shape1
        ∧ (crop_image bbox img).shape1 ≤ img.shape1) := by
  constructor
  · rw [crop_image, crop_vertical_shape0]
    exact crop_horizontal_shape0_bounds img bbox hx0 hx1 hw
  · have hb := crop_vertical_shape1_bounds (crop_horizontal bbox img) bbox hy0
      (by rw [crop_horizontal_shape1]; exact hy1) hh
    rw [crop_image]
    exact ⟨hb.1, le_trans hb.2 (le_of_eq (crop_horizontal_shape1 _ _))⟩

/-- C8 witness: a concrete valid bbox on the 4 x 1 frame. -/
theorem crop_valid_bbox_dims_wit :
    (1 ≤ (crop_image bboxValid img4).shape0
      ∧ (crop_image bboxValid img4).shape0 ≤ img4.shape0)
    ∧ (1 ≤ (crop_image bboxValid img4).shape1
        ∧ (crop_image bboxValid img4).shape1 ≤ img4.shape1) :=
  crop_valid_bbox_dims img4 bboxValid (by decide) (by decide) (by decide)
    (by decide) (by decide) (by decide)

/-- Taking at least a row's length keeps the row; mapped over all rows
this is the identity. -/
theorem map_take_eq_self {α : Type} (l : List (List α)) (n : Nat)
    (h : ∀ row ∈ l, row.length ≤ n) :
    l.map (fun row => row.take n) = l := by
  induction l with
  | nil => rfl
  | cons a l ih =>
      simp only [List.map_cons]
      rw [List.take_of_length_le (h a (List.mem_cons_self a l)),
        ih (fun u hu => h u (List.mem_cons_of_mem _ hu))]

/-- C9: cropping with a bounding box spanning the full frame
(`x = 0`, `y = 0`, `width = shape0`, `height = shape1`), whatever the
carried center, returns the original image unchanged. -/
theorem crop_full_frame_id (img : Image) (h : img.wf) (c0 c1 : Int) :
    crop_image ⟨0, 0, (img.shape0 : Int), (img.shape1 : Int), c0, c1⟩ img = img := by
  obtain ⟨hlen, hrow⟩ := h
  have hfull0 : pyIdx img.shape0 ((0 : Int) + (img.shape0 : Int)) = img.shape0 := by
    rw [pyIdx_of_nonneg _ (by omega)]
    simp
  have hzero0 : pyIdx img.shape0 (0 : Int) = 0 := by
    rw [pyIdx_of_nonneg _ le_rfl]
    simp
  have hfull1 : pyIdx img.shape1 ((0 : Int) + (img.shape1 : Int)) = img.shape1 := by
    rw [pyIdx_of_nonneg _ (by omega)]
    simp
  have hzero1 : pyIdx img.shape1 (0 : Int) = 0 := by
    rw [pyIdx_of_nonneg _ le_rfl]
    simp
  have hh : crop_horizontal ⟨0, 0, (img.shape0 : Int), (img.shape1 : Int), c0, c1⟩ img
      = img := by
    rw [crop_horizontal]
    split
    · show img.sliceTo0 ((0 : Int) + (img.shape0 : Int)) = img
      have ht : img.data.take img.shape0 = img.data := by
        rw [← hlen]
        exact List.take_length img.data
      rw [Image.sliceTo0, hfull0, ht]
    · show img.sliceFrom0 (0 : Int) = img
      rw [Image.sliceFrom0, hzero0]
      simp only [Nat.sub_zero, List.drop_zero]
  rw [crop_image, hh, crop_vertical]
  split
  · show img.sliceTo1 ((0 : Int) + (img.shape1 : Int)) = img
    rw [Image.sliceTo1, hfull1,
      map_take_eq_self img.data img.shape1 (fun u hu => le_of_eq (hrow u hu))]
  · show img.sliceFrom1 (0 : Int) = img
    rw [Image.sliceFrom1, hzero1]
    simp only [Nat.sub_zero, List.drop_zero, List.map_id']

/-- C9 witness: the full-frame bbox on the concrete 4 x 1 frame, with an
arbitrary carried center. -/
theorem crop_full_frame_id_wit :
    crop_image ⟨0, 0, (img4.shape0 : Int), (img4.shape1 : Int), 9, 9⟩ img4 = img4 :=
  crop_full_frame_id img4 (by refine ⟨rfl, ?_⟩; decide) 9 9

/-- C10: the quadrant crop stage writes only the segment's `keyframe`
field: `start`, `end`, `frames`, `keyframe_index`, `speaker_location`,
`speakers_bbox` and `image` are unchanged by `crop_keyframe`. -/
theorem crop_keyframe_writes_only_keyframe (s : Segment) :
    (crop_keyframe s).start = s.start
      ∧ (crop_keyframe s).«end» = s.«end»
      ∧ (crop_keyframe s).frames = s.frames
      ∧ (crop_keyframe s).keyframe_index = s.keyframe_index
      ∧ (crop_keyframe s).speaker_location = s.speaker_location
      ∧ (crop_keyframe s).speakers_bbox = s.speakers_bbox
      ∧ (crop_keyframe s).image = s.image :=
  ⟨rfl, rfl, rfl, rfl, rfl, rfl, rfl⟩
